import Mathlib

/-!
Shallow embedding of the mudflow template-rendering pipeline
(`src/main.rs`) for checking its natural-language specification.

The program merges one or more structured data files (JSON/YAML/TOML)
into a single tera `Context` and renders a template (or a glob of
templates) against it.  Pure logic from `src/main.rs` is translated
directly; the filesystem, standard input, the serde parsers and the
tera engine are external collaborators and are abstracted as an
explicit environment of functions, so that every theorem quantifies
over their behaviour.
-/

set_option autoImplicit false

namespace Mudflow

/-- The canonical dynamic value all three formats deserialize into
(`serde_json::Value`).  Numbers are modelled as integers; floating
point values never appear in any property checked here. -/
inductive Value where
  | null
  | bool (b : Bool)
  | num (n : Int)
  | str (s : String)
  | arr (elems : List Value)
  | object (fields : List (String × Value))
deriving Repr

/-- Whether a value is a JSON object (`Value::Object`). -/
def Value.isObjectB : Value → Bool
  | .object _ => true
  | _ => false

/-- The error enum of `src/main.rs` (`enum Error`).  Constructor
`ioErr` embeds `Error::IO`, the rest keep the Rust names. -/
inductive Error where
  | ioErr (m : String)
  | deserialization (m : String)
  | template (m : String)
  | unsupportedExt (e : String)
  | msg (m : String)
deriving DecidableEq, Repr

/-- The `Display` rendering produced by the `thiserror` attributes on
`enum Error` in `src/main.rs`. -/
def errorDisplay : Error → String
  | .ioErr m => "IO: " ++ m
  | .deserialization m => m
  | .template m => "Failed to render template: " ++ m
  | .unsupportedExt e => "Unsupported file extension: " ++ e
  | .msg m => m

/-- A `tera::Error`: its displayed message plus the displayed message
of its `source()` cause, when present. -/
structure TeraError where
  msg : String
  src : Option String
deriving DecidableEq, Repr

/-- `impl From<tera::Error> for Error` in `src/main.rs`: when the tera
error has a source, the two messages are joined with a newline; either
way the result is the `Template` variant. -/
def teraToError (e : TeraError) : Error :=
  match e.src with
  | some s => .template (e.msg ++ "\n" ++ s)
  | none => .template e.msg

/-- A tera `Context`: its `data` field is a `BTreeMap<String, Value>`,
modelled as an association list with unique keys (the operations below
preserve exactly the key-to-value mapping of the BTreeMap). -/
abbrev Ctx := List (String × Value)

/-- Lookup in a context (`BTreeMap::get`): the first binding wins;
contexts built by the operations below have unique keys. -/
def ctxGet : Ctx → String → Option Value
  | [], _ => none
  | p :: rest, k => if k = p.1 then some p.2 else ctxGet rest k

/-- `BTreeMap::insert`: replace the binding of `k` when present,
otherwise add it. -/
def ctxInsert : Ctx → String → Value → Ctx
  | [], k, v => [(k, v)]
  | p :: rest, k, v => if p.1 = k then (k, v) :: rest else p :: ctxInsert rest k v

/-- Insert every binding of `l`, in order, into `c` (later bindings of
`l` overwrite earlier ones and anything already in `c`). -/
def insertAll (c : Ctx) (l : List (String × Value)) : Ctx :=
  l.foldl (fun acc p => ctxInsert acc p.1 p.2) c

/-- `tera::Context::extend` / `BTreeMap::append`: every binding of the
other context is inserted into `c`, the other context's values winning
on a key collision. -/
def ctxExtend (c other : Ctx) : Ctx :=
  insertAll c other

/-- The fixed message of the shape error raised by
`tera::Context::from_value` on a non-object value. -/
def ctxShapeMsg : String :=
  "Creating a Context from a Value/Serialize requires it being a JSON object"

/-- `tera::Context::from_value`: succeeds exactly on `Value::Object`,
inserting each field in order into a fresh map; any other value yields
the fixed shape-error message (which mentions no source index, since
the function is never told one). -/
def fromValue : Value → Except TeraError Ctx
  | .object fields => .ok (insertAll [] fields)
  | _ => .error ⟨ctxShapeMsg, none⟩

/-- `enum FileFormat` of `src/main.rs`. -/
inductive FileFormat where
  | Json
  | Yaml
  | Toml
deriving DecidableEq, Repr

/-- `str::to_lowercase`, restricted to the ASCII letters that can
occur in a file extension (`Char.toLower` lower-cases exactly
ASCII). -/
def lowerStr (s : String) : String :=
  ⟨s.data.map Char.toLower⟩

/-- `str::trim`: strip whitespace from both ends (ASCII whitespace;
Rust and this model agree on every extension string at issue). -/
def trimStr (s : String) : String :=
  ⟨((s.data.dropWhile Char.isWhitespace).reverse.dropWhile
    Char.isWhitespace).reverse⟩

/-- `FileFormat::from_ext`: trim and lower-case the extension, then
match it against the known extensions (the if-chain mirrors the Rust
match arms on the trimmed lower-cased string); anything else is an
`UnsupportedExt` error carrying the original string. -/
def FileFormat.from_ext (s : String) : Except Error FileFormat :=
  let t := lowerStr (trimStr s)
  if t = "json" then .ok .Json
  else if t = "yaml" ∨ t = "yml" then .ok .Yaml
  else if t = "toml" then .ok .Toml
  else .error (.unsupportedExt s)

/-- The format-resolution step of the source-collection loop in `run`:
an explicit `-f` format always wins; otherwise the file extension is
inspected through `FileFormat::from_ext`.  A pure function of its two
inputs. -/
def resolveFormat (explicit : Option FileFormat) (ext : String) :
    Except Error FileFormat :=
  match explicit with
  | some f => .ok f
  | none => FileFormat.from_ext ext

/-- `std::path::Path::file_name` restricted to the plain string paths
used here: the component after the last separator. -/
def fileNameOf (p : String) : String :=
  (p.splitOn "/").getLastD ""

/-- `std::path::Path::extension`: none when the file name holds no dot,
or starts with its only dot; otherwise the portion after the final
dot. -/
def pathExtension (p : String) : Option String :=
  let name := fileNameOf p
  let parts := name.splitOn "."
  if parts.length ≤ 1 then none
  else if name.startsWith "." ∧ parts.length = 2 then none
  else some (parts.getLastD "")

/-- The external collaborators of `run`, as explicit functions: the
filesystem reads, standard input, the three serde parsers (each
returning the parser's diagnostic message on failure), the tera glob
loader (`Tera::new`), the two rendering entry points, and the
fallible filesystem-write primitives (returning the OS message on
failure). -/
structure Env where
  readFile : String → Except String String
  stdin : Except String String
  parseJson : String → Except String Value
  parseYaml : String → Except String Value
  parseToml : String → Except String Value
  teraNewGlob : String → Except TeraError (List String)
  renderGlob : String → Ctx → Except TeraError String
  renderRaw : String → String → Ctx → Except TeraError String
  createDir : String → Option String
  createFile : String → Option String

/-- The per-source parser dispatch inside `deserialize` in
`src/main.rs`, including the per-format error prefixes. -/
def parseOf (env : Env) : FileFormat → String → Except Error Value
  | .Json, s =>
    match env.parseJson s with
    | .ok v => .ok v
    | .error e => .error (.deserialization ("Failed JSON deserialization: " ++ e))
  | .Yaml, s =>
    match env.parseYaml s with
    | .ok v => .ok v
    | .error e => .error (.deserialization ("Failed YAML deserialization: " ++ e))
  | .Toml, s =>
    match env.parseToml s with
    | .ok v => .ok v
    | .error e => .error (.deserialization ("Failed TOML deserialization: " ++ e))

/-- The loop body of `deserialize` in `src/main.rs`, with the
accumulating context made explicit: parse each source, convert it with
`Context::from_value` (whose error is routed through
`From<tera::Error>`), and extend the accumulated context. -/
def deserializeGo (env : Env) (context : Ctx) :
    List (FileFormat × String) → Except Error Ctx
  | [] => .ok context
  | (format, s) :: rest =>
    match parseOf env format s with
    | .error e => .error e
    | .ok value =>
      match fromValue value with
      | .error te => .error (teraToError te)
      | .ok c1 => deserializeGo env (ctxExtend context c1) rest

/-- `deserialize` in `src/main.rs`: fold the sources into a context
that starts out empty (`Context::new()`). -/
def deserialize (env : Env) (input : List (FileFormat × String)) :
    Except Error Ctx :=
  deserializeGo env [] input

/-- The CLI arguments (`struct Args` in `src/main.rs`), already parsed
by clap: optional list of source paths, optional output directory,
optional explicit format, and the positional template path-or-glob. -/
structure Args where
  sources : Option (List String)
  out_dir : Option String
  format : Option FileFormat
  templates : String

/-- An observable side effect of `run`, in the order performed:
directory creation, file creation, a rendered write into a file, a
verbatim write to standard output, or a diagnostic note on the error
stream (the green `rendered:` line). -/
inductive Event where
  | createDirAll (path : String)
  | createFile (path : String)
  | writeFile (path : String) (content : String)
  | writeStdout (content : String)
  | stderrNote (m : String)
deriving DecidableEq, Repr

/-- `PathBuf::join` for the relative string paths used here. -/
def pathJoin (a b : String) : String :=
  a ++ "/" ++ b

/-- `Path::parent` for the joined output paths used here: the portion
before the last separator, none when there is no separator. -/
def parentOf (p : String) : Option String :=
  let parts := p.splitOn "/"
  if parts.length ≤ 1 then none
  else some (String.intercalate "/" parts.dropLast)

/-- The source-collection loop of `run` for the `-s` file case: for
each path, resolve the format first (explicit flag or extension, via
`Path::extension().unwrap_or_default()`), then read the file,
wrapping a read failure in the `IO` variant with the path named. -/
def collectFiles (env : Env) (explicit : Option FileFormat) :
    List String → Except Error (List (FileFormat × String))
  | [] => .ok []
  | path :: rest =>
    match resolveFormat explicit ((pathExtension path).getD "") with
    | .error e => .error e
    | .ok format =>
      match env.readFile path with
      | .error e =>
        .error (.ioErr ("Failed to read source file '" ++ path ++ "': " ++ e))
      | .ok content =>
        match collectFiles env explicit rest with
        | .error e => .error e
        | .ok restInputs => .ok ((format, content) :: restInputs)

/-- The whole source-collection block of `run`: the file loop when
`-s` paths were given, otherwise the stdin path, which demands an
explicit format before standard input is even read. -/
def collectSources (env : Env) (args : Args) :
    Except Error (List (FileFormat × String)) :=
  match args.sources with
  | some sources => collectFiles env args.format sources
  | none =>
    match args.format with
    | none => .error (.msg "Format required when using stdin!")
    | some format =>
      match env.stdin with
      | .error e => .error (.ioErr ("Failed to read stdin: " ++ e))
      | .ok input => .ok [(format, input)]

/-- The tail of one iteration of the glob-mode loop in `run`, after
the parent directories are handled: create the destination file,
render into it (`render_to`), and note the render on the error
stream.  `pfx` holds the events of the directory step and
`restResult` the outcome of the remaining templates, which is
consulted only when this template succeeds. -/
def renderFile (env : Env) (outDir : String) (context : Ctx) (t : String)
    (pfx : List Event) (restResult : List Event × Option Error) :
    List Event × Option Error :=
  match env.createFile (pathJoin outDir t) with
  | some e =>
    (pfx, some (.ioErr
      ("Failed to create file '" ++ pathJoin outDir t ++ "': " ++ e)))
  | none =>
    match env.renderGlob t context with
    | .error te => (pfx ++ [.createFile (pathJoin outDir t)], some (teraToError te))
    | .ok rendered =>
      (pfx ++ [.createFile (pathJoin outDir t),
               .writeFile (pathJoin outDir t) rendered,
               .stderrNote ("rendered: " ++ pathJoin outDir t)] ++ restResult.1,
       restResult.2)

/-- The glob-mode loop of `run`: for each template, join the output
path, create its parent directories when it has any, then create and
fill the file.  A failure aborts the loop; events of earlier templates
are kept. -/
def renderLoop (env : Env) (outDir : String) (context : Ctx) :
    List String → List Event × Option Error
  | [] => ([], none)
  | t :: rest =>
    match parentOf (pathJoin outDir t) with
    | none => renderFile env outDir context t [] (renderLoop env outDir context rest)
    | some parent =>
      match env.createDir parent with
      | some e =>
        ([], some (.ioErr
          ("Failed to create directories '" ++ parent ++ "': " ++ e)))
      | none =>
        renderFile env outDir context t [Event.createDirAll parent]
          (renderLoop env outDir context rest)

/-- The `out_dir` branch of `run`: hand the raw template argument to
the tera glob loader (`Tera::new`), then create the output directory,
then render every loaded template into it. -/
def runGlobBranch (env : Env) (outDir : String) (pattern : String)
    (context : Ctx) : List Event × Option Error :=
  match env.teraNewGlob pattern with
  | .error te => ([], some (teraToError te))
  | .ok names =>
    match env.createDir outDir with
    | some e =>
      ([], some (.ioErr
        ("Failed to create directories '" ++ outDir ++ "': " ++ e)))
    | none =>
      (Event.createDirAll outDir :: (renderLoop env outDir context names).1,
       (renderLoop env outDir context names).2)

/-- The no-`out_dir` branch of `run`: read the template argument as a
literal file path, register and render it (`add_raw_template` plus
`render_to`, both surfacing as tera errors), and write the result to
standard output. -/
def runLiteralBranch (env : Env) (pattern : String) (context : Ctx) :
    List Event × Option Error :=
  match env.readFile pattern with
  | .error e =>
    ([], some (.ioErr ("Failed to read source file '" ++ pattern ++ "': " ++ e)))
  | .ok templateInput =>
    match env.renderRaw pattern templateInput context with
    | .error te => ([], some (teraToError te))
    | .ok out => ([Event.writeStdout out], none)

/-- `run` in `src/main.rs`: collect the sources, deserialize them into
the context, then branch on the presence of the output directory —
and on nothing else. -/
def run (env : Env) (args : Args) : List Event × Option Error :=
  match collectSources env args with
  | .error e => ([], some e)
  | .ok sources =>
    match deserialize env sources with
    | .error e => ([], some e)
    | .ok context =>
      match args.out_dir with
      | some outDir => runGlobBranch env outDir args.templates context
      | none => runLiteralBranch env args.templates context

/-- `fn main` in `src/main.rs`: returns unit and never calls
`process::exit`, so the process exit status is 0 on both paths; a
`run` error is printed to the standard error stream as a single
`error: ...` line.  Result: exit code, event trace, stderr error
lines. -/
def mainResult (env : Env) (args : Args) : Nat × List Event × List String :=
  match run env args with
  | (events, some e) => (0, events, ["error: " ++ errorDisplay e])
  | (events, none) => (0, events, [])

/-! ### Specification-side helpers for the merge semantics -/

/-- Left-biased choice on optional values. -/
def optOr (a b : Option Value) : Option Value :=
  match a with
  | some v => some v
  | none => b

/-- The value of the last binding of `k` in a raw field list (the
binding a map built from the list in order ends up holding). -/
def lastBinding (l : List (String × Value)) (k : String) : Option Value :=
  ctxGet l.reverse k

/-- The merged view of a list of already-parsed top-level mappings:
the value of `k` in the rightmost (latest) source that binds it. -/
def mergedGet : List (List (String × Value)) → String → Option Value
  | [], _ => none
  | m :: rest, k => optOr (mergedGet rest k) (lastBinding m k)

/-- The keys of a context. -/
def ctxKeys (c : Ctx) : List String :=
  c.map Prod.fst

theorem optOr_none_right (a : Option Value) : optOr a none = a := by
  cases a <;> rfl

theorem optOr_assoc (a b c : Option Value) :
    optOr (optOr a b) c = optOr a (optOr b c) := by
  cases a <;> rfl

theorem ctxGet_append (a b : Ctx) (k : String) :
    ctxGet (a ++ b) k = optOr (ctxGet a k) (ctxGet b k) := by
  induction a with
  | nil => simp [ctxGet, optOr]
  | cons p rest ih =>
    by_cases h : k = p.1 <;> simp [ctxGet, h, optOr, ih]

theorem ctxGet_insert (c : Ctx) (k : String) (v : Value) (a : String) :
    ctxGet (ctxInsert c k v) a = if a = k then some v else ctxGet c a := by
  induction c with
  | nil => simp [ctxInsert, ctxGet]
  | cons p rest ih =>
    by_cases hp : p.1 = k
    · by_cases ha : a = k <;> simp [ctxInsert, ctxGet, hp, ha]
    · by_cases hap : a = p.1
      · have hak : ¬ a = k := fun hak => hp (hap.symm.trans hak)
        simp [ctxInsert, ctxGet, hp, hap, hak]
      · simp [ctxInsert, ctxGet, hp, hap, ih]

theorem insertAll_get (l : List (String × Value)) (c : Ctx) (k : String) :
    ctxGet (insertAll c l) k = optOr (lastBinding l k) (ctxGet c k) := by
  induction l generalizing c with
  | nil => simp [insertAll, lastBinding, ctxGet, optOr]
  | cons q l ih =>
    have hstep : insertAll c (q :: l) = insertAll (ctxInsert c q.1 q.2) l := rfl
    rw [hstep, ih, ctxGet_insert]
    have hlast : lastBinding (q :: l) k
        = optOr (lastBinding l k) (if k = q.1 then some q.2 else none) := by
      have hrev : (q :: l).reverse = l.reverse ++ [q] := by simp
      rw [lastBinding, hrev, ctxGet_append]
      rfl
    rw [hlast, optOr_assoc]
    by_cases h : k = q.1 <;> cases hl : lastBinding l k <;> simp [h, optOr]

theorem mem_ctxKeys_insert (c : Ctx) (k : String) (v : Value) (a : String)
    (h : a ∈ ctxKeys (ctxInsert c k v)) : a = k ∨ a ∈ ctxKeys c := by
  induction c with
  | nil =>
    left
    simpa [ctxInsert, ctxKeys] using h
  | cons p rest ih =>
    have hdef : ctxInsert (p :: rest) k v
        = if p.1 = k then (k, v) :: rest else p :: ctxInsert rest k v := rfl
    by_cases hp : p.1 = k
    · rw [hdef, if_pos hp] at h
      rcases List.mem_cons.mp h with h' | h'
      · exact Or.inl h'
      · exact Or.inr (List.mem_cons_of_mem _ h')
    · rw [hdef, if_neg hp] at h
      rcases List.mem_cons.mp h with h' | h'
      · right
        rw [h']
        exact List.mem_cons_self _ _
      · rcases ih h' with h2 | h2
        · exact Or.inl h2
        · exact Or.inr (List.mem_cons_of_mem _ h2)

theorem nodup_ctxKeys_insert (c : Ctx) (k : String) (v : Value)
    (h : (ctxKeys c).Nodup) : (ctxKeys (ctxInsert c k v)).Nodup := by
  induction c with
  | nil => simp [ctxInsert, ctxKeys]
  | cons p rest ih =>
    rw [show ctxKeys (p :: rest) = p.1 :: ctxKeys rest from rfl,
      List.nodup_cons] at h
    have hdef : ctxInsert (p :: rest) k v
        = if p.1 = k then (k, v) :: rest else p :: ctxInsert rest k v := rfl
    by_cases hp : p.1 = k
    · rw [hdef, if_pos hp,
        show ctxKeys ((k, v) :: rest) = k :: ctxKeys rest from rfl,
        List.nodup_cons]
      exact ⟨hp ▸ h.1, h.2⟩
    · rw [hdef, if_neg hp,
        show ctxKeys (p :: ctxInsert rest k v)
          = p.1 :: ctxKeys (ctxInsert rest k v) from rfl,
        List.nodup_cons]
      refine ⟨fun hmem => ?_, ih h.2⟩
      rcases mem_ctxKeys_insert rest k v p.1 hmem with h' | h'
      · exact hp h'
      · exact h.1 h'

theorem nodup_ctxKeys_insertAll (l : List (String × Value)) (c : Ctx)
    (h : (ctxKeys c).Nodup) : (ctxKeys (insertAll c l)).Nodup := by
  induction l generalizing c with
  | nil => exact h
  | cons q l ih => exact ih (ctxInsert c q.1 q.2) (nodup_ctxKeys_insert c q.1 q.2 h)

theorem ctxGet_eq_none_of_not_mem (c : Ctx) (k : String)
    (h : k ∉ ctxKeys c) : ctxGet c k = none := by
  induction c with
  | nil => rfl
  | cons p rest ih =>
    rw [show ctxKeys (p :: rest) = p.1 :: ctxKeys rest from rfl] at h
    have h1 : ¬ k = p.1 := fun hk => h (hk ▸ List.mem_cons_self _ _)
    have h2 : k ∉ ctxKeys rest := fun hk => h (List.mem_cons_of_mem _ hk)
    simp [ctxGet, h1, ih h2]

theorem ctxGet_reverse (c : Ctx) (k : String) (h : (ctxKeys c).Nodup) :
    ctxGet c.reverse k = ctxGet c k := by
  induction c with
  | nil => rfl
  | cons p rest ih =>
    rw [show ctxKeys (p :: rest) = p.1 :: ctxKeys rest from rfl,
      List.nodup_cons] at h
    have hrev : (p :: rest).reverse = rest.reverse ++ [p] := by simp
    rw [hrev, ctxGet_append, ih h.2]
    by_cases hk : k = p.1
    · rw [ctxGet_eq_none_of_not_mem rest k (by rw [hk]; exact h.1)]
      simp [ctxGet, hk, optOr]
    · simp [ctxGet, hk, optOr_none_right]

theorem deserializeGo_merge (env : Env) (sources : List (FileFormat × String))
    (parsed : List (List (String × Value)))
    (h : List.Forall₂
      (fun s m => parseOf env s.1 s.2 = .ok (Value.object m)) sources parsed) :
    ∀ c₀ : Ctx, ∃ c, deserializeGo env c₀ sources = .ok c ∧
      ∀ k, ctxGet c k = optOr (mergedGet parsed k) (ctxGet c₀ k) := by
  induction h with
  | nil => exact fun c₀ => ⟨c₀, rfl, fun k => rfl⟩
  | @cons a b l₁ l₂ hab htail ih =>
    intro c₀
    obtain ⟨fmt, s⟩ := a
    obtain ⟨c, hc, hget⟩ := ih (ctxExtend c₀ (insertAll [] b))
    refine ⟨c, ?_, ?_⟩
    · simpa [deserializeGo, hab, fromValue] using hc
    · intro k
      rw [hget k]
      have hext : ctxGet (ctxExtend c₀ (insertAll [] b)) k
          = optOr (lastBinding b k) (ctxGet c₀ k) := by
        have hnodup : (ctxKeys (insertAll [] b)).Nodup :=
          nodup_ctxKeys_insertAll b [] (by simp [ctxKeys])
        rw [ctxExtend, insertAll_get, lastBinding, ctxGet_reverse _ _ hnodup,
          insertAll_get]
        rw [show ctxGet ([] : Ctx) k = none from rfl, optOr_none_right]
      rw [hext, ← optOr_assoc]
      rfl

/-- A small concrete environment used by the witnesses: a fixed parser
table over short tag strings and a tiny filesystem. -/
def envW : Env where
  readFile := fun p =>
    if p = "*.txt" then .ok "Hello" else .error "No such file or directory (os error 2)"
  stdin := .ok "A"
  parseJson := fun s =>
    if s = "A" then .ok (.object [("k", .num 1)])
    else if s = "B" then .ok (.object [("k", .num 2)])
    else if s = "NA" then .ok (.object [("k", .object [("a", .num 1), ("b", .num 2)])])
    else if s = "NB" then .ok (.object [("k", .object [("b", .num 3)])])
    else if s = "N" then .ok (.str "x")
    else .error "expected value at line 1 column 1"
  parseYaml := fun _ => .error "invalid yaml"
  parseToml := fun _ => .error "invalid toml"
  teraNewGlob := fun _ => .ok ["greet.txt"]
  renderGlob := fun _ _ => .ok "Hi"
  renderRaw := fun _ content _ => .ok content
  createDir := fun _ => none
  createFile := fun _ => none

/-- C1: when every source deserializes to a top-level mapping, context
assembly merges the mappings left-to-right in source order; the final
context binds each key to the value of the last source that defines
it (so for `A = [k ↦ 1]`, `B = [k ↦ 2]` the merge binds `k` to `2`),
and a colliding value is taken wholesale from the last source — even
when it is a nested mapping, it replaces the earlier one entirely
rather than being deep-merged. -/
theorem context_merge_last_writer_wins (env : Env)
    (sources : List (FileFormat × String))
    (parsed : List (List (String × Value)))
    (h : List.Forall₂
      (fun s m => parseOf env s.1 s.2 = .ok (Value.object m)) sources parsed) :
    ∃ c, deserialize env sources = .ok c ∧
      ∀ k, ctxGet c k = mergedGet parsed k := by
  obtain ⟨c, hc, hget⟩ := deserializeGo_merge env sources parsed h []
  refine ⟨c, hc, fun k => ?_⟩
  rw [hget k, show ctxGet ([] : Ctx) k = none from rfl, optOr_none_right]

/-- Witness for C1 at the concrete inputs of the claim: `A = [k ↦ 1]`,
`B = [k ↦ 2]` merge to `k ↦ 2`, and two sources with nested mappings
under the colliding key keep only the second source's nested mapping,
wholesale. -/
theorem context_merge_last_writer_wins_witness :
    (∃ c, deserialize envW [(.Json, "A"), (.Json, "B")] = .ok c ∧
      ctxGet c "k" = some (.num 2)) ∧
    (∃ c, deserialize envW [(.Json, "NA"), (.Json, "NB")] = .ok c ∧
      ctxGet c "k" = some (.object [("b", .num 3)])) := by
  constructor
  · obtain ⟨c, hc, hg⟩ := context_merge_last_writer_wins envW
      [(.Json, "A"), (.Json, "B")] [[("k", .num 1)], [("k", .num 2)]]
      (List.Forall₂.cons rfl (List.Forall₂.cons rfl List.Forall₂.nil))
    refine ⟨c, hc, ?_⟩
    rw [hg "k"]
    rfl
  · obtain ⟨c, hc, hg⟩ := context_merge_last_writer_wins envW
      [(.Json, "NA"), (.Json, "NB")]
      [[("k", .object [("a", .num 1), ("b", .num 2)])],
       [("k", .object [("b", .num 3)])]]
      (List.Forall₂.cons rfl (List.Forall₂.cons rfl List.Forall₂.nil))
    refine ⟨c, hc, ?_⟩
    rw [hg "k"]
    rfl

/-- C8: assembling an empty sequence of sources succeeds and yields
the empty context, for every environment — it is not an error. -/
theorem empty_sources_empty_context (env : Env) :
    deserialize env [] = .ok ([] : Ctx) := rfl

/-- C4 (amended): when the sources before index `i` all parse to
top-level mappings and source `i` parses to a non-mapping value,
assembly fails immediately — no context is produced and the sources
after `i` are never consulted — with the context-shape error surfaced
through the `Template` error variant; the error is one fixed message,
identical for every offending index. -/
theorem context_shape_fail_fast (env : Env)
    (pre : List (FileFormat × String)) (preParsed : List (List (String × Value)))
    (fmt : FileFormat) (s : String) (v : Value) (rest : List (FileFormat × String))
    (h1 : List.Forall₂
      (fun s m => parseOf env s.1 s.2 = .ok (Value.object m)) pre preParsed)
    (h2 : parseOf env fmt s = .ok v) (h3 : v.isObjectB = false) :
    deserialize env (pre ++ (fmt, s) :: rest) = .error (.template ctxShapeMsg) := by
  have hfv : fromValue v = .error ⟨ctxShapeMsg, none⟩ := by
    cases v <;> first | rfl | exact absurd h3 (by simp [Value.isObjectB])
  suffices hgo : ∀ c₀, deserializeGo env c₀ (pre ++ (fmt, s) :: rest)
      = .error (.template ctxShapeMsg) from hgo []
  induction h1 with
  | nil =>
    intro c₀
    simp [deserializeGo, h2, hfv, teraToError]
  | @cons a b l₁ l₂ hab htail ih =>
    intro c₀
    obtain ⟨f0, s0⟩ := a
    simpa [deserializeGo, hab, fromValue] using
      ih (ctxExtend c₀ (insertAll [] b))

/-- Witness for the amended C4: a mapping source, then a non-mapping
source, then a further source; assembly fails with the fixed shape
error and the trailing source is never parsed. -/
theorem context_shape_fail_fast_witness :
    deserialize envW [(.Json, "A"), (.Json, "N"), (.Json, "B")]
      = .error (.template ctxShapeMsg) :=
  context_shape_fail_fast envW [(.Json, "A")] [[("k", .num 1)]] .Json "N"
    (.str "x") [(.Json, "B")]
    (List.Forall₂.cons rfl List.Forall₂.nil) rfl rfl

/-- C4 counterexample: the claim says the shape error names the index
of the offending source; in the code the error message is produced by
`tera::Context::from_value`, which is never told the index — the
failing run with the offending source at index 0 and the failing run
with it at index 1 report the very same error, whose message contains
no digit at all, so it cannot name any index. -/
theorem context_shape_error_names_no_index :
    deserialize envW [(.Json, "N")] = .error (.template ctxShapeMsg) ∧
    deserialize envW [(.Json, "A"), (.Json, "N")] = .error (.template ctxShapeMsg) ∧
    ctxShapeMsg.data.all (fun c => !c.isDigit) = true :=
  ⟨rfl, rfl, rfl⟩

/-- C6: format resolution for a file source is a pure function of the
explicit flag and the extension: an explicit format always wins, even
against a contradicting extension; otherwise the extension, trimmed
and lower-cased, resolves json to JSON, yaml or yml to YAML, toml to
TOML, and any other extension — the missing extension, read as the
empty string, included — fails with `UnsupportedExt`. -/
theorem format_resolution (f : FileFormat) (ext : String) :
    resolveFormat (some f) ext = .ok f ∧
    (lowerStr (trimStr ext) = "json" → resolveFormat none ext = .ok .Json) ∧
    (lowerStr (trimStr ext) = "yaml" ∨ lowerStr (trimStr ext) = "yml" →
      resolveFormat none ext = .ok .Yaml) ∧
    (lowerStr (trimStr ext) = "toml" → resolveFormat none ext = .ok .Toml) ∧
    (lowerStr (trimStr ext) ≠ "json" → lowerStr (trimStr ext) ≠ "yaml" →
      lowerStr (trimStr ext) ≠ "yml" → lowerStr (trimStr ext) ≠ "toml" →
      resolveFormat none ext = .error (.unsupportedExt ext)) ∧
    resolveFormat none "" = .error (.unsupportedExt "") := by
  refine ⟨rfl, ?_, ?_, ?_, ?_, rfl⟩
  · intro h
    simp only [resolveFormat, FileFormat.from_ext]
    rw [h]
    rfl
  · rintro (h | h) <;> simp only [resolveFormat, FileFormat.from_ext] <;>
      rw [h] <;> rfl
  · intro h
    simp only [resolveFormat, FileFormat.from_ext]
    rw [h]
    rfl
  · intro h1 h2 h3 h4
    simp only [resolveFormat, FileFormat.from_ext]
    rw [if_neg h1, if_neg ?_, if_neg h4]
    rintro (h | h)
    exacts [h2 h, h3 h]

/-- Witness for C6: an explicit TOML flag beats a json extension; the
decorated extension " JSON " resolves to JSON, "YML" to YAML, "toml"
to TOML; "txt" and the missing extension fail with `UnsupportedExt`. -/
theorem format_resolution_witness :
    resolveFormat (some .Toml) "json" = .ok .Toml ∧
    resolveFormat none " JSON " = .ok .Json ∧
    resolveFormat none "YML" = .ok .Yaml ∧
    resolveFormat none "toml" = .ok .Toml ∧
    resolveFormat none "txt" = .error (.unsupportedExt "txt") ∧
    resolveFormat none "" = .error (.unsupportedExt "") := by
  refine ⟨(format_resolution .Toml "json").1,
    (format_resolution .Json " JSON ").2.1 (by decide),
    (format_resolution .Json "YML").2.2.1 (Or.inr (by decide)),
    (format_resolution .Json "toml").2.2.2.1 (by decide),
    (format_resolution .Json "txt").2.2.2.2.1
      (by decide) (by decide) (by decide) (by decide),
    (format_resolution .Json "").2.2.2.2.2⟩

/-- C7: a run reading standard input (no source files) with no
explicit format flag fails with the format-required error, with an
empty event trace, identically for every environment — so before
standard input is read and before any deserialization is attempted. -/
theorem stdin_without_format_fails (env : Env) (odir : Option String)
    (tmpl : String) :
    run env ⟨none, odir, none, tmpl⟩
      = ([], some (.msg "Format required when using stdin!")) := rfl

/-- C5 at a failing input: `fn main` returns unit and never sets a
process exit status, so the exit code is 0 for every invocation —
including ones whose error is reported — while the error message goes
to the standard error stream, not to standard output.  The second
conjunct evaluates the code at a concrete erroring invocation: the
error line is on stderr, the event trace (and hence stdout) is empty,
yet the exit code is 0, where the claim demands nonzero. -/
theorem main_exit_code_always_zero :
    (∀ (env : Env) (args : Args), (mainResult env args).1 = 0) ∧
    mainResult envW ⟨none, none, none, "t.txt"⟩
      = (0, [], ["error: Format required when using stdin!"]) := by
  refine ⟨fun env args => ?_, rfl⟩
  rw [mainResult]
  rcases run env args with ⟨evs, _ | e⟩ <;> rfl

/-- C2 counterexample: an invocation whose template argument is the
glob pattern `*.txt` and that supplies no output directory does not
fail at all when a file literally named `*.txt` exists — the pattern
is read as a literal path and rendered to standard output — refuting
the claim that every such invocation fails with an input-contract
violation. -/
theorem glob_without_outdir_can_succeed :
    run envW ⟨some [], none, none, "*.txt"⟩
      = ([Event.writeStdout "Hello"], none) := rfl

/-- C2 (amended): the code checks the template argument for glob
metacharacters nowhere; without an output directory the argument —
glob pattern or not — is read as a literal file path, and when no
file of that literal name can be read the run aborts with the IO
read error naming that path, before any filesystem write (the event
trace is empty). -/
theorem no_outdir_glob_fails_as_literal_read (env : Env)
    (srcs : Option (List String)) (fmt : Option FileFormat) (tmpl e : String)
    (srcList : List (FileFormat × String)) (ctx : Ctx)
    (hc : collectSources env ⟨srcs, none, fmt, tmpl⟩ = .ok srcList)
    (hd : deserialize env srcList = .ok ctx)
    (hr : env.readFile tmpl = .error e) :
    run env ⟨srcs, none, fmt, tmpl⟩
      = ([], some (.ioErr
          ("Failed to read source file '" ++ tmpl ++ "': " ++ e))) := by
  simp [run, hc, hd, runLiteralBranch, hr]

/-- Witness for the amended C2: no file named `*.md` exists, so the
glob-shaped template argument fails as a literal read, with no write
event. -/
theorem no_outdir_glob_fails_as_literal_read_witness :
    run envW ⟨some [], none, none, "*.md"⟩
      = ([], some (.ioErr ("Failed to read source file '*.md': "
          ++ "No such file or directory (os error 2)"))) := by
  have h := no_outdir_glob_fails_as_literal_read envW (some []) none "*.md"
    "No such file or directory (os error 2)" [] [] rfl rfl rfl
  rw [h]
  rfl

/-- Modelled from the spec: the template-set resolver is the tera
engine's glob loader (`Tera::new`), whose implementation is not part
of `src/`; per the spec it enumerates the files the glob matches and
"fails with `TemplateLoadError` if ... the glob matches zero files".
`glob` gives the files the pattern matches on the filesystem. -/
def teraNewSpec (glob : String → List String) (pattern : String) :
    Except TeraError (List String) :=
  match glob pattern with
  | [] => .error ⟨"TemplateLoadError: glob '" ++ pattern
      ++ "' matched no files", none⟩
  | names => .ok names

/-- C3: in glob mode (output directory present), when the glob
matches zero files the spec-modelled resolver fails with the
template-load error and — as `run` calls `Tera::new` strictly before
`create_dir_all` — the run aborts with that error on an empty event
trace: the output directory is never created. -/
theorem zero_match_glob_fails_before_outdir (env : Env)
    (glob : String → List String) (srcs : Option (List String))
    (fmt : Option FileFormat) (outDir tmpl : String)
    (srcList : List (FileFormat × String)) (ctx : Ctx)
    (henv : env.teraNewGlob = teraNewSpec glob)
    (hz : glob tmpl = [])
    (hc : collectSources env ⟨srcs, some outDir, fmt, tmpl⟩ = .ok srcList)
    (hd : deserialize env srcList = .ok ctx) :
    run env ⟨srcs, some outDir, fmt, tmpl⟩
      = ([], some (.template ("TemplateLoadError: glob '" ++ tmpl
          ++ "' matched no files"))) := by
  simp [run, hc, hd, runGlobBranch, henv, teraNewSpec, hz, teraToError]

/-- The witness environment for the zero-match glob: the filesystem
matches no file against any pattern. -/
def envZ : Env :=
  { envW with teraNewGlob := teraNewSpec (fun _ => []) }

/-- Witness for C3: with an output directory and a glob matching
nothing, the run fails with the template-load error and creates no
directory. -/
theorem zero_match_glob_fails_before_outdir_witness :
    run envZ ⟨some [], some "out", none, "missing/*.txt"⟩
      = ([], some (.template
          "TemplateLoadError: glob 'missing/*.txt' matched no files")) := by
  have h := zero_match_glob_fails_before_outdir envZ (fun _ => [])
    (some []) none "out" "missing/*.txt" [] [] rfl rfl rfl rfl
  rw [h]
  rfl

/-- Whether an event touches the filesystem (directory creation, file
creation, or a file write). -/
def eventWritesFs : Event → Bool
  | .createDirAll _ => true
  | .createFile _ => true
  | .writeFile _ _ => true
  | _ => false

/-- Whether an event is a write to standard output. -/
def eventIsStdout : Event → Bool
  | .writeStdout _ => true
  | _ => false

theorem renderFile_no_stdout (env : Env) (outDir : String) (ctx : Ctx)
    (t : String) (pfx : List Event) (r : List Event × Option Error)
    (hp : pfx.all (fun ev => !eventIsStdout ev) = true)
    (hr : r.1.all (fun ev => !eventIsStdout ev) = true) :
    (renderFile env outDir ctx t pfx r).1.all
      (fun ev => !eventIsStdout ev) = true := by
  rw [renderFile]
  split
  · exact hp
  · split
    · rw [List.all_append, hp]
      rfl
    · rw [List.all_append, List.all_append, hp, hr]
      rfl

theorem renderLoop_no_stdout (env : Env) (outDir : String) (ctx : Ctx)
    (ts : List String) :
    (renderLoop env outDir ctx ts).1.all
      (fun ev => !eventIsStdout ev) = true := by
  induction ts with
  | nil => rfl
  | cons t rest ih =>
    rw [renderLoop]
    split
    · exact renderFile_no_stdout env outDir ctx t [] _ rfl ih
    · split
      · rfl
      · exact renderFile_no_stdout env outDir ctx t [Event.createDirAll _] _ rfl ih

theorem runGlobBranch_no_stdout (env : Env) (outDir pattern : String)
    (ctx : Ctx) :
    (runGlobBranch env outDir pattern ctx).1.all
      (fun ev => !eventIsStdout ev) = true := by
  rw [runGlobBranch]
  split
  · rfl
  · split
    · rfl
    · rename_i x1 names h1 x2 h2
      rw [List.all_cons, renderLoop_no_stdout env outDir ctx names]
      rfl

theorem runLiteralBranch_no_fs (env : Env) (pattern : String) (ctx : Ctx) :
    (runLiteralBranch env pattern ctx).1.all
      (fun ev => !eventWritesFs ev) = true := by
  rw [runLiteralBranch]
  split
  · rfl
  · split
    · rfl
    · rfl

/-- C9: the output mode is selected solely by the presence of the
output-directory argument, never by the template argument's shape.
Without an output directory the run performs no filesystem write at
all and the template argument — glob pattern or not — is consulted
only as a literal path through the filesystem read, whose failure
aborts the run with the IO read error.  With an output directory the
run never writes to standard output and the template argument — plain
literal path or not — is handed to the tera glob loader, whose
verdict decides the run. -/
theorem mode_selected_by_outdir_only (env : Env) (srcs : Option (List String))
    (fmt : Option FileFormat) (tmpl outDir : String) :
    ((run env ⟨srcs, none, fmt, tmpl⟩).1.all
      (fun ev => !eventWritesFs ev) = true) ∧
    ((run env ⟨srcs, some outDir, fmt, tmpl⟩).1.all
      (fun ev => !eventIsStdout ev) = true) ∧
    (∀ (srcList : List (FileFormat × String)) (ctx : Ctx) (e : String),
      collectSources env ⟨srcs, none, fmt, tmpl⟩ = .ok srcList →
      deserialize env srcList = .ok ctx → env.readFile tmpl = .error e →
      run env ⟨srcs, none, fmt, tmpl⟩
        = ([], some (.ioErr
            ("Failed to read source file '" ++ tmpl ++ "': " ++ e)))) ∧
    (∀ (srcList : List (FileFormat × String)) (ctx : Ctx) (te : TeraError),
      collectSources env ⟨srcs, some outDir, fmt, tmpl⟩ = .ok srcList →
      deserialize env srcList = .ok ctx → env.teraNewGlob tmpl = .error te →
      run env ⟨srcs, some outDir, fmt, tmpl⟩ = ([], some (teraToError te))) := by
  refine ⟨?_, ?_, ?_, ?_⟩
  · rw [run]
    split
    · rfl
    · split
      · rfl
      · exact runLiteralBranch_no_fs env tmpl _
  · rw [run]
    split
    · rfl
    · split
      · rfl
      · exact runGlobBranch_no_stdout env outDir tmpl _
  · intro srcList ctx e hc hd hr
    simp [run, hc, hd, runLiteralBranch, hr]
  · intro srcList ctx te hc hd ht
    simp [run, hc, hd, runGlobBranch, ht]

/-- Witness for C9: a glob-shaped template argument without an output
directory is read as a literal file (failing as an IO read); a plain
literal template argument with an output directory goes to the glob
loader (failing with its template-load verdict). -/
theorem mode_selected_by_outdir_only_witness :
    run envW ⟨some [], none, none, "*.cfg"⟩
      = ([], some (.ioErr ("Failed to read source file '*.cfg': "
          ++ "No such file or directory (os error 2)"))) ∧
    run envZ ⟨some [], some "out", none, "lit.txt"⟩
      = ([], some (.template
          "TemplateLoadError: glob 'lit.txt' matched no files")) := by
  constructor
  · have h := (mode_selected_by_outdir_only envW (some []) none "*.cfg"
      "out").2.2.1 [] [] "No such file or directory (os error 2)" rfl rfl rfl
    rw [h]
    rfl
  · have h := (mode_selected_by_outdir_only envZ (some []) none "lit.txt"
      "out").2.2.2 [] []
      ⟨"TemplateLoadError: glob 'lit.txt' matched no files", none⟩ rfl rfl rfl
    rw [h]
    rfl

/-- Whether an error is the `UnsupportedExt` variant. -/
def isUnsupportedErr : Error → Bool
  | .unsupportedExt _ => true
  | _ => false

/-- `isUnsupportedErr` on the error of a fallible computation. -/
def exceptUnsup {α : Type} : Except Error α → Bool
  | .error e => isUnsupportedErr e
  | .ok _ => false

/-- `isUnsupportedErr` on an optional error. -/
def optUnsup : Option Error → Bool
  | some e => isUnsupportedErr e
  | none => false

/-- Whether every collected source carries format `f` (vacuously true
on a failed collection). -/
def formatsUniform (f : FileFormat) :
    Except Error (List (FileFormat × String)) → Bool
  | .ok l => l.all (fun p => decide (p.1 = f))
  | .error _ => true

theorem teraToError_not_unsup (te : TeraError) :
    isUnsupportedErr (teraToError te) = false := by
  rcases te with ⟨m, src⟩
  cases src <;> rfl

theorem parseOf_not_unsup (env : Env) (fmt : FileFormat) (s : String) :
    exceptUnsup (parseOf env fmt s) = false := by
  cases fmt <;> rw [parseOf] <;> split <;> rfl

theorem deserializeGo_not_unsup (env : Env)
    (input : List (FileFormat × String)) :
    ∀ c₀, exceptUnsup (deserializeGo env c₀ input) = false := by
  induction input with
  | nil => intro c₀; rfl
  | cons a rest ih =>
    intro c₀
    obtain ⟨fmt, s⟩ := a
    rw [deserializeGo]
    split
    · rename_i e h
      have hp := parseOf_not_unsup env fmt s
      rw [h] at hp
      exact hp
    · split
      · exact teraToError_not_unsup _
      · exact ih _

theorem renderFile_not_unsup (env : Env) (outDir : String) (ctx : Ctx)
    (t : String) (pfx : List Event) (r : List Event × Option Error)
    (hr : optUnsup r.2 = false) :
    optUnsup (renderFile env outDir ctx t pfx r).2 = false := by
  rw [renderFile]
  split
  · rfl
  · split
    · exact teraToError_not_unsup _
    · exact hr

theorem renderLoop_not_unsup (env : Env) (outDir : String) (ctx : Ctx)
    (ts : List String) :
    optUnsup (renderLoop env outDir ctx ts).2 = false := by
  induction ts with
  | nil => rfl
  | cons t rest ih =>
    rw [renderLoop]
    split
    · exact renderFile_not_unsup env outDir ctx t [] _ ih
    · split
      · rfl
      · exact renderFile_not_unsup env outDir ctx t _ _ ih

theorem runGlobBranch_not_unsup (env : Env) (outDir pattern : String)
    (ctx : Ctx) :
    optUnsup (runGlobBranch env outDir pattern ctx).2 = false := by
  rw [runGlobBranch]
  split
  · exact teraToError_not_unsup _
  · split
    · rfl
    · rename_i x1 names h1 x2 h2
      exact renderLoop_not_unsup env outDir ctx names

theorem runLiteralBranch_not_unsup (env : Env) (pattern : String) (ctx : Ctx) :
    optUnsup (runLiteralBranch env pattern ctx).2 = false := by
  rw [runLiteralBranch]
  split
  · rfl
  · split
    · exact teraToError_not_unsup _
    · rfl

theorem collectFiles_explicit (env : Env) (f : FileFormat)
    (paths : List String) :
    exceptUnsup (collectFiles env (some f) paths) = false ∧
    formatsUniform f (collectFiles env (some f) paths) = true := by
  induction paths with
  | nil => exact ⟨rfl, rfl⟩
  | cons path rest ih =>
    rw [collectFiles]
    split
    · rename_i e h
      rw [resolveFormat] at h
      exact Except.noConfusion h
    · rename_i format h
      rw [resolveFormat] at h
      injection h with hf
      subst hf
      split
      · exact ⟨rfl, rfl⟩
      · split
        · rename_i e h2
          refine ⟨?_, rfl⟩
          have h3 := ih.1
          rw [h2] at h3
          exact h3
        · rename_i l h2
          refine ⟨rfl, ?_⟩
          have h3 : l.all (fun p => decide (p.1 = f)) = true := by
            have h4 := ih.2
            rw [h2] at h4
            exact h4
          rw [formatsUniform, List.all_cons, h3]
          simp

theorem collectSources_explicit (env : Env) (srcs : Option (List String))
    (odir : Option String) (tmpl : String) (f : FileFormat) :
    exceptUnsup (collectSources env ⟨srcs, odir, some f, tmpl⟩) = false ∧
    formatsUniform f (collectSources env ⟨srcs, odir, some f, tmpl⟩) = true := by
  cases srcs with
  | some paths => exact collectFiles_explicit env f paths
  | none =>
    constructor
    · cases h : env.stdin with
      | error e => simp [collectSources, h, exceptUnsup, isUnsupportedErr]
      | ok input => simp [collectSources, h, exceptUnsup]
    · cases h : env.stdin with
      | error e => simp [collectSources, h, formatsUniform]
      | ok input => simp [collectSources, h, formatsUniform]

/-- C10: with an explicit format flag, the flag is applied uniformly
to every collected source and no extension is ever inspected: the
collected source list (when collection succeeds) carries the explicit
format on every entry, and the run can never fail with
`UnsupportedExt`, whatever the sources' extensions are. -/
theorem explicit_format_never_unsupported (env : Env)
    (srcs : Option (List String)) (odir : Option String) (tmpl : String)
    (f : FileFormat) :
    optUnsup (run env ⟨srcs, odir, some f, tmpl⟩).2 = false ∧
    formatsUniform f (collectSources env ⟨srcs, odir, some f, tmpl⟩) = true := by
  refine ⟨?_, (collectSources_explicit env srcs odir tmpl f).2⟩
  rw [run]
  split
  · rename_i e h
    have h1 := (collectSources_explicit env srcs odir tmpl f).1
    rw [h] at h1
    exact h1
  · split
    · rename_i x1 sources hcol x2 e h2
      have h1 := deserializeGo_not_unsup env sources []
      rw [show deserializeGo env [] sources = deserialize env sources from rfl,
        h2] at h1
      exact h1
    · cases odir with
      | some d => exact runGlobBranch_not_unsup env d tmpl _
      | none => exact runLiteralBranch_not_unsup env tmpl _

end Mudflow
